import Mathlib

/-!
Verification of the wire binary serialization library (package wire,
files wire.go and visitor.go).  The library walks a Go value with
reflection and drives three visitors over the resulting field tree:
a size calculator, an encoder and a decoder.  This file gives a shallow
embedding of those three operations and proves or refutes the frozen
claims about them.

Modelling conventions:
  * Go values reachable by the traversal are the inductive WValue;
    struct fields carry their parsed wire-tag directives directly
    (the tag tokenizer itself is out of scope per the spec).
  * Machine integers are Nat / Int with explicit truncation (mod 2^w)
    exactly where the Go code converts (SetUint, SetInt, uintN casts).
  * The io.Writer is a state (byte buffer plus a failure flag); Write
    appends and reports an error when failing, mirroring a failing sink.
    The Go encoder discards the error result of Write, and so does the
    model.
  * The io.Reader is a List Nat with bytes.Buffer read semantics:
    reading n bytes from a non-empty buffer yields min(n, len) bytes
    (the destination stays zero past that) and no error; reading from
    an empty buffer yields io.EOF.
  * Fallible operations return Except Err; Go runtime panics (nil
    dereference, reflect.Value.Uint on a signed value, reflect.Value.Len
    on a scalar) are modelled as the distinguished Err.panicked variant,
    kept apart from ordinary error returns (Err.goError).
-/

namespace Wire

/-- Byte order selected per call or per field (binary.LittleEndian /
binary.BigEndian). -/
inductive ByteOrder where
  | little
  | big
deriving DecidableEq, Repr

/-- One parsed directive of a wire struct tag: big, little, nullterm or
sizeof=Target, in the order the tag matcher yields them. -/
inductive Directive where
  | big
  | little
  | nullterm
  | sizeofD (target : String)
deriving DecidableEq, Repr

/-- Failure of an operation: an ordinary Go error return, or a runtime
panic (crash), which the embedding keeps distinguishable. -/
inductive Err where
  | goError (msg : String)
  | panicked (msg : String)
deriving DecidableEq, Repr

/-- binary.ByteOrder.PutUint16: two bytes of x in the given order. -/
def putUint16 (o : ByteOrder) (x : Nat) : List Nat :=
  match o with
  | .little => [x % 256, x / 256 % 256]
  | .big => [x / 256 % 256, x % 256]

/-- binary.ByteOrder.PutUint32: four bytes of x in the given order. -/
def putUint32 (o : ByteOrder) (x : Nat) : List Nat :=
  match o with
  | .little => [x % 256, x / 256 % 256, x / 65536 % 256, x / 16777216 % 256]
  | .big => [x / 16777216 % 256, x / 65536 % 256, x / 256 % 256, x % 256]

/-- binary.ByteOrder.PutUint64: eight bytes of x in the given order. -/
def putUint64 (o : ByteOrder) (x : Nat) : List Nat :=
  match o with
  | .little =>
      [x % 256, x / 256 % 256, x / 65536 % 256, x / 16777216 % 256,
       x / 4294967296 % 256, x / 1099511627776 % 256,
       x / 281474976710656 % 256, x / 72057594037927936 % 256]
  | .big =>
      [x / 72057594037927936 % 256, x / 281474976710656 % 256,
       x / 1099511627776 % 256, x / 4294967296 % 256,
       x / 16777216 % 256, x / 65536 % 256, x / 256 % 256, x % 256]

/-- binary.ByteOrder.Uint16 on a two-byte buffer. -/
def getUint16 (o : ByteOrder) (bs : List Nat) : Nat :=
  match o with
  | .little => bs.getD 0 0 + 256 * bs.getD 1 0
  | .big => bs.getD 1 0 + 256 * bs.getD 0 0

/-- binary.ByteOrder.Uint32 on a four-byte buffer. -/
def getUint32 (o : ByteOrder) (bs : List Nat) : Nat :=
  match o with
  | .little =>
      bs.getD 0 0 + 256 * bs.getD 1 0 + 65536 * bs.getD 2 0 +
        16777216 * bs.getD 3 0
  | .big =>
      bs.getD 3 0 + 256 * bs.getD 2 0 + 65536 * bs.getD 1 0 +
        16777216 * bs.getD 0 0

/-- binary.ByteOrder.Uint64 on an eight-byte buffer. -/
def getUint64 (o : ByteOrder) (bs : List Nat) : Nat :=
  match o with
  | .little =>
      bs.getD 0 0 + 256 * bs.getD 1 0 + 65536 * bs.getD 2 0 +
        16777216 * bs.getD 3 0 + 4294967296 * bs.getD 4 0 +
        1099511627776 * bs.getD 5 0 + 281474976710656 * bs.getD 6 0 +
        72057594037927936 * bs.getD 7 0
  | .big =>
      bs.getD 7 0 + 256 * bs.getD 6 0 + 65536 * bs.getD 5 0 +
        16777216 * bs.getD 4 0 + 4294967296 * bs.getD 3 0 +
        1099511627776 * bs.getD 2 0 + 281474976710656 * bs.getD 1 0 +
        72057594037927936 * bs.getD 0 0

/-- Conversion of a non-negative integer to a signed machine integer of
width w by two's-complement wrapping (Go intN(x) narrowing). -/
def toIntW (w : Nat) (x : Nat) : Int :=
  if x % 2 ^ w < 2 ^ (w - 1) then ((x % 2 ^ w : Nat) : Int)
  else ((x % 2 ^ w : Nat) : Int) - 2 ^ w

/-- Low byte of a signed machine integer (Go byte(x)). -/
def intLowByte (x : Int) : Nat := (x % 256).toNat

/-- Go uintN(x) narrowing of a signed value: non-negative representative
modulo 2^w. -/
def intToUintW (w : Nat) (x : Int) : Nat := (x % (2 ^ w : Int)).toNat

mutual
/-- A Go value as seen by the traversal: fixed-width integers, floats
and complex numbers (payloads kept as their raw IEEE bit patterns),
the kinds every visitor rejects (bool, int, uint, uintptr), arrays,
slices, strings (as raw bytes) and structs. -/
inductive WValue where
  | i8 (v : Int)
  | i16 (v : Int)
  | i32 (v : Int)
  | i64 (v : Int)
  | u8 (v : Nat)
  | u16 (v : Nat)
  | u32 (v : Nat)
  | u64 (v : Nat)
  | f32 (bits : Nat)
  | f64 (bits : Nat)
  | c64 (bits : Nat)
  | c128 (bits : Nat)
  | gbool (b : Bool)
  | gint (v : Int)
  | guint (v : Nat)
  | guintptr (v : Nat)
  | arr (es : VList)
  | slice (es : VList)
  | str (bs : List Nat)
  | strct (fs : FList)

/-- A list of element values of an array or slice. -/
inductive VList where
  | nil
  | cons (v : WValue) (rest : VList)

/-- The fields of a struct: name, parsed tag directives, value, in
declaration order. -/
inductive FList where
  | nil
  | cons (name : String) (tag : List Directive) (v : WValue) (rest : FList)
end

/-- reflect.Kind.String for the value kinds the traversal meets. -/
def kindName : WValue → String
  | .i8 _ => "int8"
  | .i16 _ => "int16"
  | .i32 _ => "int32"
  | .i64 _ => "int64"
  | .u8 _ => "uint8"
  | .u16 _ => "uint16"
  | .u32 _ => "uint32"
  | .u64 _ => "uint64"
  | .f32 _ => "float32"
  | .f64 _ => "float64"
  | .c64 _ => "complex64"
  | .c128 _ => "complex128"
  | .gbool _ => "bool"
  | .gint _ => "int"
  | .guint _ => "uint"
  | .guintptr _ => "uintptr"
  | .arr _ => "array"
  | .slice _ => "slice"
  | .str _ => "string"
  | .strct _ => "struct"

/-- Whether a value is of struct kind (the element-type test in the
size calculator's sequence branch). -/
def WValue.isStructKind : WValue → Bool
  | .strct _ => true
  | _ => false

/-- Number of elements of a VList (reflect.Value.Len on the sequence). -/
def VList.length : VList → Nat
  | .nil => 0
  | .cons _ rest => rest.length + 1

/-- Concatenation of field lists. -/
def appendF : FList → FList → FList
  | .nil, gs => gs
  | .cons n t v rest, gs => .cons n t v (appendF rest gs)

/-- Append a single field at the end of a field list. -/
def snocF (fs : FList) (name : String) (tag : List Directive) (v : WValue) : FList :=
  appendF fs (.cons name tag v .nil)

/-- reflect.Value.FieldByName: the first field with the given name. -/
def fieldLookup (target : String) : FList → Option WValue
  | .nil => none
  | .cons n _ v rest => if n = target then some v else fieldLookup target rest

/-- Lookup in the sizeFroms table (newest registration first, so a later
registration for the same name silently overwrites an earlier one). -/
def lookupEnv (name : String) : List (String × WValue) → Option WValue
  | [] => none
  | (k, v) :: rest => if k = name then some v else lookupEnv name rest

/-- reflect.Value.Len: element count of arrays and slices, byte length
of strings; panics on any other kind. -/
def vLen : WValue → Except Err Nat
  | .arr es => .ok es.length
  | .slice es => .ok es.length
  | .str bs => .ok bs.length
  | v => .error (.panicked ("reflect: call of reflect.Value.Len on " ++ kindName v ++ " Value"))

/-- reflect.Value.Uint: the stored value for unsigned kinds; panics on
any other kind (in particular on every signed integer kind). -/
def valUint : WValue → Except Err Nat
  | .u8 v => .ok v
  | .u16 v => .ok v
  | .u32 v => .ok v
  | .u64 v => .ok v
  | .guint v => .ok v
  | .guintptr v => .ok v
  | v => .error (.panicked ("reflect: call of reflect.Value.Uint on " ++ kindName v ++ " Value"))

/-- The endianness directive of a tag, last occurrence winning, as the
tag loop in runVisitorInternal applies them. -/
def tagEndian (tag : List Directive) : Option ByteOrder :=
  tag.foldl
    (fun acc d =>
      match d with
      | .big => some .big
      | .little => some .little
      | _ => acc)
    none

/-- Whether the tag carries the nullterm directive. -/
def tagNullterm (tag : List Directive) : Bool :=
  tag.any fun d =>
    match d with
    | .nullterm => true
    | _ => false

/-- The target of the last sizeof directive of the tag (the node's
sizeof reference is overwritten by each occurrence). -/
def tagSizeof (tag : List Directive) : Option String :=
  tag.foldl
    (fun acc d =>
      match d with
      | .sizeofD t => some t
      | _ => acc)
    none

/-- All sizeof targets of the tag in order; each one registers the field
in the parent's sizeFroms table. -/
def tagSizeofTargets (tag : List Directive) : List String :=
  tag.foldr
    (fun d acc =>
      match d with
      | .sizeofD t => t :: acc
      | _ => acc)
    []

/-- The scalar and string cases of sizeofVisitor.visit: fixed widths
per kind, string byte length plus one when null-terminated, and the
unsupported-type error for everything else. -/
def sizeofLeaf (nullt : Bool) (v : WValue) : Except Err Nat :=
  match v with
  | .i8 _ => .ok 1
  | .u8 _ => .ok 1
  | .i16 _ => .ok 2
  | .u16 _ => .ok 2
  | .i32 _ => .ok 4
  | .u32 _ => .ok 4
  | .f32 _ => .ok 4
  | .i64 _ => .ok 8
  | .u64 _ => .ok 8
  | .f64 _ => .ok 8
  | .c64 _ => .ok 8
  | .c128 _ => .ok 16
  | .str bs => .ok (if nullt then bs.length + 1 else bs.length)
  | v => .error (.goError ("wire: unsupported type: " ++ kindName v))

mutual
/-- sizeofVisitor.visit: the size contribution of one visited node.
Only the nullterm directive of the node influences the size; struct
kinds never reach the visitor (the driver recurses instead). -/
def sizeofNode (nullt : Bool) (v : WValue) : Except Err Nat :=
  match v with
  | .arr es => sizeofSeq es
  | .slice es => sizeofSeq es
  | v => sizeofLeaf nullt v

/-- The Array/Slice branch of sizeofVisitor.visit: struct elements are
measured one by one, any other element kind is measured once (first
element) and multiplied by the length, which its own TODO comment calls
wrong for variable sized element kinds. -/
def sizeofSeq (es : VList) : Except Err Nat :=
  match es with
  | .nil => .ok 0
  | .cons e rest =>
      if e.isStructKind then
        match sizeofValue e with
        | .error er => .error er
        | .ok isize =>
            match sizeofStructElems rest with
            | .error er => .error er
            | .ok s => .ok (isize + s)
      else
        match sizeofValue e with
        | .error er => .error er
        | .ok isize => .ok ((VList.cons e rest).length * isize)

/-- Sum of independent top-level measurements of struct elements. -/
def sizeofStructElems (es : VList) : Except Err Nat :=
  match es with
  | .nil => .ok 0
  | .cons e rest =>
      match sizeofValue e with
      | .error er => .error er
      | .ok isize =>
          match sizeofStructElems rest with
          | .error er => .error er
          | .ok s => .ok (isize + s)

/-- Top-level sizeof(v): runVisitor with a fresh sizeofVisitor, so a
bare (non-field) value carries no directives. -/
def sizeofValue (v : WValue) : Except Err Nat :=
  match v with
  | .strct fs => sizeofFields fs
  | .arr es => sizeofSeq es
  | .slice es => sizeofSeq es
  | v => sizeofLeaf false v

/-- The struct branch of runVisitorInternal under the sizeofVisitor:
fields accumulate in declaration order; struct-kind fields recurse,
leaf fields are visited with their own nullterm directive. -/
def sizeofFields (fs : FList) : Except Err Nat :=
  match fs with
  | .nil => .ok 0
  | .cons _ tag v rest =>
      match
        (match v with
         | .strct inner => sizeofFields inner
         | v => sizeofNode (tagNullterm tag) v) with
      | .error er => .error er
      | .ok s =>
          match sizeofFields rest with
          | .error er => .error er
          | .ok srest => .ok (s + srest)
end

/-- The value the node's sizeof directive refers to: FieldByName of the
last sizeof target against the parent struct, none when there is no
sizeof directive or the named sibling does not exist (an invalid
reflect.Value). -/
def szofRef (whole : FList) (tag : List Directive) : Option WValue :=
  match tagSizeof tag with
  | none => none
  | some tgt => fieldLookup tgt whole

/-- Registration of a field in the parent's sizeFroms table: each
sizeof target of its tag maps to the field's live value, later
registrations shadowing earlier ones for the same target. -/
def regEnv (tag : List Directive) (v : WValue) (env : List (String × WValue)) :
    List (String × WValue) :=
  (tagSizeofTargets tag).foldl (fun e tgt => (tgt, v) :: e) env

/-- The byte sink: a buffer plus a failure switch.  Write appends the
bytes and succeeds when the sink is healthy; a failing sink writes
nothing and reports an error (which the encoder ignores). -/
structure Writer where
  failing : Bool
  buf : List Nat
deriving DecidableEq, Repr

/-- One Write call on the sink. -/
def Writer.write (w : Writer) (bs : List Nat) : Writer × Option Err :=
  if w.failing then (w, some (.goError "write failed"))
  else ({ w with buf := w.buf ++ bs }, none)

/-- Lines 124-131 of encodeVisitor.visit: when the node carries a valid
sizeof reference, overwrite the field value with the length of the
referenced sibling before writing.  The switch covers Int8/Int32/Int64
and Uint8/Uint32/Uint64 only: the 16-bit kinds are absent and stay
unpatched.  reflect.Value.Len panics when the target is not a
collection. -/
def backPatch (szof : Option WValue) (v : WValue) : Except Err WValue :=
  match szof with
  | none => .ok v
  | some target =>
      match v with
      | .i8 _ =>
          match vLen target with
          | .error er => .error er
          | .ok l => .ok (.i8 (toIntW 8 l))
      | .i32 _ =>
          match vLen target with
          | .error er => .error er
          | .ok l => .ok (.i32 (toIntW 32 l))
      | .i64 _ =>
          match vLen target with
          | .error er => .error er
          | .ok l => .ok (.i64 (toIntW 64 l))
      | .u8 _ =>
          match vLen target with
          | .error er => .error er
          | .ok l => .ok (.u8 (l % 2 ^ 8))
      | .u32 _ =>
          match vLen target with
          | .error er => .error er
          | .ok l => .ok (.u32 (l % 2 ^ 32))
      | .u64 _ =>
          match vLen target with
          | .error er => .error er
          | .ok l => .ok (.u64 (l % 2 ^ 64))
      | v => .ok v

/-- The leaf cases of encodeVisitor.visit, after the sizeof back-patch
has been applied: fixed-width kinds are written in the resolved order,
strings verbatim with an optional terminator, every other kind is
rejected.  Write errors are discarded as in the source. -/
def encodeLeaf (order : ByteOrder) (nullt : Bool) (v : WValue) (w : Writer) :
    Except Err (WValue × Writer) :=
  match v with
  | .i8 x => .ok (.i8 x, (w.write [intLowByte x]).1)
  | .u8 x => .ok (.u8 x, (w.write [x % 256]).1)
  | .i16 x => .ok (.i16 x, (w.write (putUint16 order (intToUintW 16 x))).1)
  | .u16 x => .ok (.u16 x, (w.write (putUint16 order (x % 2 ^ 16))).1)
  | .i32 x => .ok (.i32 x, (w.write (putUint32 order (intToUintW 32 x))).1)
  | .u32 x => .ok (.u32 x, (w.write (putUint32 order (x % 2 ^ 32))).1)
  | .i64 x => .ok (.i64 x, (w.write (putUint64 order (intToUintW 64 x))).1)
  | .u64 x => .ok (.u64 x, (w.write (putUint64 order (x % 2 ^ 64))).1)
  | .f32 bits => .ok (.f32 bits, (w.write (putUint32 order (bits % 2 ^ 32))).1)
  | .f64 bits => .ok (.f64 bits, (w.write (putUint64 order (bits % 2 ^ 64))).1)
  | .str bs =>
      let w1 := (w.write bs).1
      .ok (.str bs, if nullt then (w1.write [0]).1 else w1)
  | v => .error (.goError ("wire: unsupported type: " ++ kindName v))

mutual
/-- encodeVisitor.visit for one node, together with the driver dispatch:
vo is the visitor's default order, eo the node's endianness directive,
nullt its nullterm directive and szof the value referenced by its
sizeof directive.  Struct kinds never reach the visitor: the driver
recurses into the fields with the visitor's default order, dropping the
node's own directives.  The sizeof back-patch precedes the kind switch
but only ever alters the six integer kinds of its switch, so routing
the composite kinds first is equivalent to the source order.  The
returned value reflects the back-patch mutation. -/
def encodeNode (vo : ByteOrder) (eo : Option ByteOrder) (nullt : Bool)
    (szof : Option WValue) (v : WValue) (w : Writer) : Except Err (WValue × Writer) :=
  match v with
  | .strct fs =>
      match encodeFields vo .nil fs w with
      | .error er => .error er
      | .ok (fs2, w2) => .ok (.strct fs2, w2)
  | .arr es =>
      match encodeSeq (eo.getD vo) es w with
      | .error er => .error er
      | .ok (es2, w2) => .ok (.arr es2, w2)
  | .slice es =>
      match encodeSeq (eo.getD vo) es w with
      | .error er => .error er
      | .ok (es2, w2) => .ok (.slice es2, w2)
  | v =>
      match backPatch szof v with
      | .error er => .error er
      | .ok v2 => encodeLeaf (eo.getD vo) nullt v2 w

/-- The element loop of the encoder's Array/Slice branch: each element
is encoded by a fresh top-level call whose default order is the
resolved order of the sequence node, with no directives of its own. -/
def encodeSeq (vo : ByteOrder) (es : VList) (w : Writer) : Except Err (VList × Writer) :=
  match es with
  | .nil => .ok (.nil, w)
  | .cons e rest =>
      match encodeNode vo none false none e w with
      | .error er => .error er
      | .ok (e2, w2) =>
          match encodeSeq vo rest w2 with
          | .error er => .error er
          | .ok (rest2, w3) => .ok (.cons e2 rest2, w3)

/-- The struct branch of runVisitorInternal under the encodeVisitor:
fields are processed in declaration order; done holds the already
processed (possibly back-patched) prefix, and the sizeof reference of
the current field is resolved by FieldByName against the current state
of the whole struct. -/
def encodeFields (vo : ByteOrder) (done : FList) (pending : FList) (w : Writer) :
    Except Err (FList × Writer) :=
  match pending with
  | .nil => .ok (done, w)
  | .cons name tag v rest =>
      match
        encodeNode vo (tagEndian tag) (tagNullterm tag)
          (szofRef (appendF done (.cons name tag v rest)) tag) v w with
      | .error er => .error er
      | .ok (v2, w2) => encodeFields vo (snocF done name tag v2) rest w2
end

mutual
/-- The static shape decode works against: the type of the fresh value
passed to Decode, with the wire tags of every struct field. -/
inductive WTy where
  | i8
  | i16
  | i32
  | i64
  | u8
  | u16
  | u32
  | u64
  | f32
  | f64
  | c64
  | c128
  | gbool
  | gint
  | guint
  | guintptr
  | arr (n : Nat) (elem : WTy)
  | slice (elem : WTy)
  | str
  | strct (fs : TFList)

/-- Struct field types: name, parsed tag directives, field type, in
declaration order. -/
inductive TFList where
  | nil
  | cons (name : String) (tag : List Directive) (ty : WTy) (rest : TFList)
end

/-- reflect.Kind.String for the field types decode meets. -/
def tyKindName : WTy → String
  | .i8 => "int8"
  | .i16 => "int16"
  | .i32 => "int32"
  | .i64 => "int64"
  | .u8 => "uint8"
  | .u16 => "uint16"
  | .u32 => "uint32"
  | .u64 => "uint64"
  | .f32 => "float32"
  | .f64 => "float64"
  | .c64 => "complex64"
  | .c128 => "complex128"
  | .gbool => "bool"
  | .gint => "int"
  | .guint => "uint"
  | .guintptr => "uintptr"
  | .arr _ _ => "array"
  | .slice _ => "slice"
  | .str => "string"
  | .strct _ => "struct"

/-- One io.Reader.Read call asking for k bytes, with bytes.Buffer
semantics: an empty buffer yields io.EOF (unless k is zero); otherwise
up to k bytes are read with no error and the rest of the destination
stays zero.  Returns the k destination bytes, the remaining input and
the error. -/
def readBytes (k : Nat) (r : List Nat) : List Nat × List Nat × Option Err :=
  if r.isEmpty then
    (List.replicate k 0, r, if k = 0 then none else some (.goError "EOF"))
  else
    (r.take k ++ List.replicate (k - r.length) 0, r.drop k, none)

/-- readNullTerminatedString: single-byte reads until a zero byte is
consumed; end of input before the terminator is an EOF failure. -/
def readNullTerm : List Nat → List Nat × Except Err (List Nat)
  | [] => ([], .error (.goError "EOF"))
  | b :: rest =>
      if b = 0 then (rest, .ok [])
      else
        match readNullTerm rest with
        | (r2, .error er) => (r2, .error er)
        | (r2, .ok bs) => (r2, .ok (b :: bs))

/-- The element loop of the decoder's Array/Slice branches: run the
given element decoder the given number of times, failing fast. -/
def iterDecode (d : List Nat → List Nat × Except Err WValue) :
    Nat → List Nat → List Nat × Except Err VList
  | 0, r => (r, .ok .nil)
  | n + 1, r =>
      match d r with
      | (r2, .error er) => (r2, .error er)
      | (r2, .ok v) =>
          match iterDecode d n r2 with
          | (r3, .error er) => (r3, .error er)
          | (r3, .ok vs) => (r3, .ok (.cons v vs))

/-- The fixed-width and string leaf cases of decodeVisitor.visit, in
the resolved order.  szfrom is the live value of the node's resolved
length producer (nil when none was registered).  A string without the
nullterm directive dereferences its producer node unconditionally, so a
missing producer is a nil-pointer panic, and the producer's value is
read with reflect.Value.Uint, which panics on signed kinds.  Kinds
absent from the decoder's switch (floats, complex, bool, int, uint,
uintptr) are unsupported-type errors. -/
def decodeLeaf (order : ByteOrder) (nullt : Bool) (szfrom : Option WValue)
    (t : WTy) (r : List Nat) : List Nat × Except Err WValue :=
  match t with
  | .i8 =>
      match readBytes 1 r with
      | (bs, r2, none) => (r2, .ok (.i8 (toIntW 8 (bs.getD 0 0))))
      | (_, r2, some er) => (r2, .error er)
  | .u8 =>
      match readBytes 1 r with
      | (bs, r2, none) => (r2, .ok (.u8 (bs.getD 0 0)))
      | (_, r2, some er) => (r2, .error er)
  | .i16 =>
      match readBytes 2 r with
      | (bs, r2, none) => (r2, .ok (.i16 (toIntW 16 (getUint16 order bs))))
      | (_, r2, some er) => (r2, .error er)
  | .u16 =>
      match readBytes 2 r with
      | (bs, r2, none) => (r2, .ok (.u16 (getUint16 order bs)))
      | (_, r2, some er) => (r2, .error er)
  | .i32 =>
      match readBytes 4 r with
      | (bs, r2, none) => (r2, .ok (.i32 (toIntW 32 (getUint32 order bs))))
      | (_, r2, some er) => (r2, .error er)
  | .u32 =>
      match readBytes 4 r with
      | (bs, r2, none) => (r2, .ok (.u32 (getUint32 order bs)))
      | (_, r2, some er) => (r2, .error er)
  | .i64 =>
      match readBytes 8 r with
      | (bs, r2, none) => (r2, .ok (.i64 (toIntW 64 (getUint64 order bs))))
      | (_, r2, some er) => (r2, .error er)
  | .u64 =>
      match readBytes 8 r with
      | (bs, r2, none) => (r2, .ok (.u64 (getUint64 order bs)))
      | (_, r2, some er) => (r2, .error er)
  | .str =>
      if nullt then
        match readNullTerm r with
        | (r2, .error er) => (r2, .error er)
        | (r2, .ok bs) => (r2, .ok (.str bs))
      else
        match szfrom with
        | none =>
            (r, .error (.panicked "runtime error: invalid memory address or nil pointer dereference"))
        | some producer =>
            match valUint producer with
            | .error er => (r, .error er)
            | .ok cnt =>
                if cnt < 2 ^ 63 then
                  match readBytes cnt r with
                  | (bs, r2, none) => (r2, .ok (.str bs))
                  | (_, r2, some er) => (r2, .error er)
                else (r, .error (.panicked "runtime error: makeslice: len out of range"))
  | t => (r, .error (.goError ("wire: unsupported type: " ++ tyKindName t)))

mutual
/-- decodeVisitor.visit for one node, together with the driver dispatch:
vo is the visitor's default order, eo the node's endianness directive,
nullt its nullterm directive and szfrom the live value of its resolved
length producer.  Struct kinds never reach the visitor: the driver
recurses into the fields with the visitor's default order and a fresh
sizeFroms scope, dropping the node's own directives.  Array and slice
elements are decoded by fresh top-level calls whose default order is
the node's resolved order, with no directives of their own.  A slice
with no resolved producer is the ordinary error "wire: slice with no
size source" before any input is consumed. -/
def decodeNode (vo : ByteOrder) (eo : Option ByteOrder) (nullt : Bool)
    (szfrom : Option WValue) (t : WTy) (r : List Nat) : List Nat × Except Err WValue :=
  match t with
  | .strct tfs =>
      match decodeFields vo [] tfs r with
      | (r2, .error er) => (r2, .error er)
      | (r2, .ok fs) => (r2, .ok (.strct fs))
  | .arr n elem =>
      match iterDecode (decodeNode (eo.getD vo) none false none elem) n r with
      | (r2, .error er) => (r2, .error er)
      | (r2, .ok es) => (r2, .ok (.arr es))
  | .slice elem =>
      match szfrom with
      | none => (r, .error (.goError "wire: slice with no size source"))
      | some producer =>
          match valUint producer with
          | .error er => (r, .error er)
          | .ok cnt =>
              if cnt < 2 ^ 63 then
                match iterDecode (decodeNode (eo.getD vo) none false none elem) cnt r with
                | (r2, .error er) => (r2, .error er)
                | (r2, .ok es) => (r2, .ok (.slice es))
              else (r, .error (.panicked "reflect.MakeSlice: negative len"))
  | t => decodeLeaf (eo.getD vo) nullt szfrom t r

/-- The struct branch of runVisitorInternal under the decodeVisitor:
fields are decoded in declaration order; env is the parent's sizeFroms
table mapping a target field name to the live (already decoded) value
of the producer field that registered for it.  The current field first
resolves its own producer from env, then registers itself for each of
its sizeof targets. -/
def decodeFields (vo : ByteOrder) (env : List (String × WValue))
    (tfs : TFList) (r : List Nat) : List Nat × Except Err FList :=
  match tfs with
  | .nil => (r, .ok .nil)
  | .cons name tag t rest =>
      match decodeNode vo (tagEndian tag) (tagNullterm tag) (lookupEnv name env) t r with
      | (r2, .error er) => (r2, .error er)
      | (r2, .ok v) =>
          match decodeFields vo (regEnv tag v env) rest r2 with
          | (r3, .error er) => (r3, .error er)
          | (r3, .ok fs) => (r3, .ok (.cons name tag v fs))
end

/-- Sizeof: the public measuring operation. -/
def Sizeof (v : WValue) : Except Err Nat := sizeofValue v

/-- EncodeWithOrder: the public encoder with an explicit default order;
the value is modelled as passed through a pointer, so the (possibly
back-patched) value is returned alongside the sink. -/
def EncodeWithOrder (o : ByteOrder) (v : WValue) (w : Writer) :
    Except Err (WValue × Writer) :=
  encodeNode o none false none v w

/-- Encode: EncodeWithOrder with the little-endian default. -/
def Encode (v : WValue) (w : Writer) : Except Err (WValue × Writer) :=
  EncodeWithOrder .little v w

/-- DecodeWithOrder: the public decoder with an explicit default order,
decoding a fresh value of the given type from the input. -/
def DecodeWithOrder (o : ByteOrder) (t : WTy) (r : List Nat) :
    List Nat × Except Err WValue :=
  decodeNode o none false none t r

/-- Decode: DecodeWithOrder with the little-endian default. -/
def Decode (t : WTy) (r : List Nat) : List Nat × Except Err WValue :=
  DecodeWithOrder .little t r

/-- The bytes a successful encode writes to a healthy empty sink. -/
def encodeBytes (o : ByteOrder) (v : WValue) : List Nat :=
  match EncodeWithOrder o v ⟨false, []⟩ with
  | .ok (_, w) => w.buf
  | .error _ => []

/-- Value preservation of the sizeof back-patch: holds exactly when the
back-patch at this node leaves the field value unchanged (no sizeof
reference, or a reference whose truncated length already equals the
stored value; kinds outside the patch switch are never mutated). -/
def prodMatches : Option WValue → WValue → Bool
  | none, _ => true
  | some target, .i8 x =>
      match vLen target with
      | .ok l => decide (x = toIntW 8 l)
      | .error _ => false
  | some target, .i32 x =>
      match vLen target with
      | .ok l => decide (x = toIntW 32 l)
      | .error _ => false
  | some target, .i64 x =>
      match vLen target with
      | .ok l => decide (x = toIntW 64 l)
      | .error _ => false
  | some target, .u8 x =>
      match vLen target with
      | .ok l => decide (x = l % 2 ^ 8)
      | .error _ => false
  | some target, .u32 x =>
      match vLen target with
      | .ok l => decide (x = l % 2 ^ 32)
      | .error _ => false
  | some target, .u64 x =>
      match vLen target with
      | .ok l => decide (x = l % 2 ^ 64)
      | .error _ => false
  | some _, _ => true

/-- The order a leaf or sequence node resolves for a value: the
node's directive when present, the visitor default otherwise; struct
kinds keep the visitor default because the driver never consults their
node. -/
def resolveV (vo : ByteOrder) (eo : Option ByteOrder) : WValue → ByteOrder
  | .strct _ => vo
  | _ => eo.getD vo

/-- The same resolution on the type side. -/
def resolveT (vo : ByteOrder) (eo : Option ByteOrder) : WTy → ByteOrder
  | .strct _ => vo
  | _ => eo.getD vo

/-- Whether a value is of string kind. -/
def isStrV : WValue → Bool
  | .str _ => true
  | _ => false

/-- Type kinds whose decode ignores the nullterm directive and the
resolved length producer (everything except strings and slices). -/
def plainT : WTy → Bool
  | .str => false
  | .slice _ => false
  | _ => true

mutual
/-- Round-trippable bare values: a sufficient condition under which
encoding and then decoding reproduces the value exactly.  Leaves must
be fixed-width integers within their width (so the written truncation
is the identity); arrays need matching length and round-trippable
elements; structs defer to the field relation.  Bare strings, slices,
floats and complex numbers are excluded: decode has no producer (or no
case at all) for them outside a struct field. -/
inductive RT : WValue → WTy → Prop
  | i8R (x : Int) (h1 : -128 ≤ x) (h2 : x < 128) : RT (.i8 x) .i8
  | i16R (x : Int) (h1 : -32768 ≤ x) (h2 : x < 32768) : RT (.i16 x) .i16
  | i32R (x : Int) (h1 : -2147483648 ≤ x) (h2 : x < 2147483648) : RT (.i32 x) .i32
  | i64R (x : Int) (h1 : -9223372036854775808 ≤ x) (h2 : x < 9223372036854775808) :
      RT (.i64 x) .i64
  | u8R (x : Nat) (h : x < 256) : RT (.u8 x) .u8
  | u16R (x : Nat) (h : x < 65536) : RT (.u16 x) .u16
  | u32R (x : Nat) (h : x < 4294967296) : RT (.u32 x) .u32
  | u64R (x : Nat) (h : x < 18446744073709551616) : RT (.u64 x) .u64
  | arrR {es : VList} {n : Nat} {te : WTy} (hn : n = es.length) (h : RTL es te) :
      RT (.arr es) (.arr n te)
  | strctR {fs : FList} {tfs : TFList} (h : RTF fs [] fs tfs) :
      RT (.strct fs) (.strct tfs)

/-- Round-trippable element lists: every element round-trips at the
element type. -/
inductive RTL : VList → WTy → Prop
  | nilL (te : WTy) : RTL .nil te
  | consL {e : WValue} {rest : VList} {te : WTy} (h : RT e te) (hrest : RTL rest te) :
      RTL (.cons e rest) te

/-- Round-trippable struct fields, walked with the whole struct (for
sizeof target resolution) and the live sizeFroms table.  A field is
either a plain round-trippable value whose back-patch is the identity,
a null-terminated string with no interior zero byte, a string or slice
whose resolved producer is an unsigned field already holding the exact
length, with elements round-trippable in the slice case.  The table is
threaded exactly as the decoder registers producers. -/
inductive RTF : FList → List (String × WValue) → FList → TFList → Prop
  | nilF (whole : FList) (env : List (String × WValue)) : RTF whole env .nil .nil
  | consVal {whole env name tag v t rest trest}
      (hv : RT v t)
      (hbp : prodMatches (szofRef whole tag) v = true)
      (hrest : RTF whole (regEnv tag v env) rest trest) :
      RTF whole env (.cons name tag v rest) (.cons name tag t trest)
  | consStrNull {whole env name tag bs rest trest}
      (hnt : tagNullterm tag = true)
      (hz : ∀ b ∈ bs, b ≠ 0)
      (hlt : ∀ b ∈ bs, b < 256)
      (hrest : RTF whole (regEnv tag (.str bs) env) rest trest) :
      RTF whole env (.cons name tag (.str bs) rest) (.cons name tag .str trest)
  | consStrLinked {whole env name tag bs pv rest trest}
      (hnt : tagNullterm tag = false)
      (hlk : lookupEnv name env = some pv)
      (hcnt : valUint pv = .ok bs.length)
      (hsz : bs.length < 2 ^ 63)
      (hlt : ∀ b ∈ bs, b < 256)
      (hrest : RTF whole (regEnv tag (.str bs) env) rest trest) :
      RTF whole env (.cons name tag (.str bs) rest) (.cons name tag .str trest)
  | consSlice {whole env name tag es te pv rest trest}
      (hlk : lookupEnv name env = some pv)
      (hcnt : valUint pv = .ok (VList.length es))
      (hsz : VList.length es < 2 ^ 63)
      (hes : RTL es te)
      (hrest : RTF whole (regEnv tag (.slice es) env) rest trest) :
      RTF whole env (.cons name tag (.slice es) rest) (.cons name tag (.slice te) trest)
end

/-- The concrete scenario of the spec: Cmd uint8 = 1, Len uint16 with
tag sizeof=Name,big initially 0, Name string = "ab", Flag string with
tag nullterm = "x". -/
def exScenario : WValue := .strct
  (.cons "Cmd" [] (.u8 1)
  (.cons "Len" [.sizeofD "Name", .big] (.u16 0)
  (.cons "Name" [] (.str [0x61, 0x62])
  (.cons "Flag" [.nullterm] (.str [0x78])
  .nil))))

/-- The concrete scenario with the length field already holding the
correct value 2, a round-trippable instance. -/
def exScenarioFixed : WValue := .strct
  (.cons "Cmd" [] (.u8 1)
  (.cons "Len" [.sizeofD "Name", .big] (.u16 2)
  (.cons "Name" [] (.str [0x61, 0x62])
  (.cons "Flag" [.nullterm] (.str [0x78])
  .nil))))

/-- The type of the concrete scenario struct. -/
def tyScenario : WTy := .strct
  (.cons "Cmd" [] .u8
  (.cons "Len" [.sizeofD "Name", .big] .u16
  (.cons "Name" [] .str
  (.cons "Flag" [.nullterm] .str
  .nil))))

/-- A bare slice of strings of different lengths, a supported value on
which the size calculator's multiply-first-element shortcut is wrong. -/
def vStrings : WValue :=
  .slice (.cons (.str [0x61]) (.cons (.str [0x62, 0x62]) .nil))

/-- A struct with a uint16 count field tagged sizeof=Items holding 0
while Items has three elements. -/
def vCount16 : WValue := .strct
  (.cons "N" [.sizeofD "Items"] (.u16 0)
  (.cons "Items" [] (.slice (.cons (.u8 10) (.cons (.u8 20) (.cons (.u8 30) .nil))))
  .nil))

/-- The same struct with a uint32 count field, a kind the back-patch
switch does cover. -/
def vCount32 : WValue := .strct
  (.cons "N" [.sizeofD "Items"] (.u32 0)
  (.cons "Items" [] (.slice (.cons (.u8 10) (.cons (.u8 20) (.cons (.u8 30) .nil))))
  .nil))

/-- vCount32 as encode leaves it: the count back-patched to 3. -/
def vCount32Patched : WValue := .strct
  (.cons "N" [.sizeofD "Items"] (.u32 3)
  (.cons "Items" [] (.slice (.cons (.u8 10) (.cons (.u8 20) (.cons (.u8 30) .nil))))
  .nil))

/-- A struct-typed field tagged big whose inner field is a uint32. -/
def outerBig : WValue :=
  .strct (.cons "Inner" [.big] (.strct (.cons "U32" [] (.u32 0x11223344) .nil)) .nil)

/-- A struct whose only field is a null-terminated string consisting of
one zero byte. -/
def vNulInside : WValue := .strct (.cons "S" [.nullterm] (.str [0]) .nil)

/-- The type of vNulInside. -/
def tyNulInside : WTy := .strct (.cons "S" [.nullterm] .str .nil)

/-- The type of a struct whose slice field has an int8 length producer. -/
def tySignedProducer : WTy :=
  .strct (.cons "N" [.sizeofD "S"] .i8 (.cons "S" [] (.slice .u8) .nil))

/-- A value of that shape: int8 count 0, one-element slice. -/
def vSignedProducer : WValue := .strct
  (.cons "N" [.sizeofD "S"] (.i8 0)
  (.cons "S" [] (.slice (.cons (.u8 7) .nil))
  .nil))

/-- vSignedProducer as encode leaves it: the int8 count back-patched
to 1 through the SetInt branch. -/
def vSignedProducerPatched : WValue := .strct
  (.cons "N" [.sizeofD "S"] (.i8 1)
  (.cons "S" [] (.slice (.cons (.u8 7) .nil))
  .nil))

/-- Claim C1, counterexample: on the spec's concrete scenario the code
emits 01 00 00 61 62 78 00, not 01 00 02 61 62 78 00 (the uint16 length
field is not back-patched), the output is 7 bytes rather than 9, and
measure returns 7 rather than 9. -/
theorem wire_C1_counterexample :
    encodeBytes .little exScenario = [0x01, 0x00, 0x00, 0x61, 0x62, 0x78, 0x00] ∧
    encodeBytes .little exScenario ≠ [0x01, 0x00, 0x02, 0x61, 0x62, 0x78, 0x00] ∧
    (encodeBytes .little exScenario).length = 7 ∧
    Sizeof exScenario = .ok 7 ∧
    (7 : Nat) ≠ 9 :=
  ⟨rfl, by decide, rfl, rfl, by decide⟩

/-- Claim C1, amended: the concrete scenario encodes to the bytes
01 00 00 61 62 78 00 (the Len field stays 0 because the encoder's
back-patch switch omits the 16-bit kinds), the output is 7 bytes long,
and measure of the same value returns 7. -/
theorem wire_C1_scenario :
    encodeBytes .little exScenario = [0x01, 0x00, 0x00, 0x61, 0x62, 0x78, 0x00] ∧
    (encodeBytes .little exScenario).length = 7 ∧
    Sizeof exScenario = .ok 7 :=
  ⟨rfl, rfl, rfl⟩

/-- Claim C2: refuted by the code's own admission — for the supported
value consisting of a slice of the strings "a" and "bb", measure
returns 2 while encode succeeds and writes 3 bytes, because the size
calculator measures the first element and multiplies by the length. -/
theorem wire_C2_size_encode_disagreement :
    Sizeof vStrings = .ok 2 ∧
    EncodeWithOrder .little vStrings ⟨false, []⟩ =
      .ok (vStrings, ⟨false, [0x61, 0x62, 0x62]⟩) ∧
    (encodeBytes .little vStrings).length = 3 ∧
    (2 : Nat) ≠ 3 :=
  ⟨rfl, rfl, rfl, by decide⟩

/-- Claim C4: refuted for the 2-byte count of the claim — a uint16
field tagged sizeof=Items holding 0 while Items has 3 elements is
serialized as 0 and left unmutated, because the back-patch switch
omits Int16 and Uint16; the same struct with a uint32 count is
back-patched to 3 and serialized as 3. -/
theorem wire_C4_sixteen_bit_count_not_patched :
    EncodeWithOrder .little vCount16 ⟨false, []⟩ =
      .ok (vCount16, ⟨false, [0x00, 0x00, 10, 20, 30]⟩) ∧
    EncodeWithOrder .little vCount32 ⟨false, []⟩ =
      .ok (vCount32Patched, ⟨false, [0x03, 0x00, 0x00, 0x00, 10, 20, 30]⟩) :=
  ⟨rfl, rfl⟩

/-- Claim C5: refuted — every leaf write discards the sink's error, so
encoding against a sink whose every Write fails still returns success
with nothing written, for unsigned and signed integers, strings, and
whole structs alike. -/
theorem wire_C5_write_errors_dropped (x : Nat) (y : Int) (bs : List Nat) :
    EncodeWithOrder .little (.u8 x) ⟨true, []⟩ = .ok (.u8 x, ⟨true, []⟩) ∧
    EncodeWithOrder .little (.i16 y) ⟨true, []⟩ = .ok (.i16 y, ⟨true, []⟩) ∧
    EncodeWithOrder .little (.str bs) ⟨true, []⟩ = .ok (.str bs, ⟨true, []⟩) ∧
    EncodeWithOrder .little
        (.strct (.cons "A" [] (.u8 x) (.cons "B" [.nullterm] (.str bs) .nil)))
        ⟨true, []⟩ =
      .ok (.strct (.cons "A" [] (.u8 x) (.cons "B" [.nullterm] (.str bs) .nil)),
        ⟨true, []⟩) :=
  ⟨rfl, rfl, rfl, rfl⟩

/-- Claim C6: a slice node with no resolved length producer fails with
the ordinary error "wire: slice with no size source" and consumes no
input, both at the node level for every element type and for a struct
whose slice field has no producer registered. -/
theorem wire_C6_missing_length_source (o : ByteOrder) (e : WTy) (r : List Nat) :
    decodeNode o none false none (.slice e) r =
      (r, .error (.goError "wire: slice with no size source")) ∧
    DecodeWithOrder o (.strct (.cons "S" [] (.slice .u8) .nil)) r =
      (r, .error (.goError "wire: slice with no size source")) :=
  ⟨rfl, rfl⟩

/-- Claim C7: the claim describes the intent; the code instead
dereferences the nil producer node, so decoding a struct whose string
field has neither nullterm nor a resolved producer is a nil-pointer
panic, not an ordinary MissingLengthSource error return. -/
theorem wire_C7_string_without_producer_panics (o : ByteOrder) (r : List Nat) :
    DecodeWithOrder o (.strct (.cons "S" [] .str .nil)) r =
      (r, .error (.panicked "runtime error: invalid memory address or nil pointer dereference")) :=
  rfl

/-- Claim C8, counterexample: a big directive on a struct-typed field
does not reach the struct's own fields — the inner uint32 of outerBig
is written little-endian under a little-endian call, not big-endian. -/
theorem wire_C8_counterexample :
    encodeBytes .little outerBig = [0x44, 0x33, 0x22, 0x11] ∧
    encodeBytes .little outerBig ≠ [0x11, 0x22, 0x33, 0x44] :=
  ⟨rfl, by decide⟩

/-- Claim C8, amended: a per-field byte-order directive overrides the
call default for the field itself and for descendants reached through
array/slice recursion; a directive on a struct-typed field does not
propagate to the struct's fields.  In particular a uint32 tagged big
under a little-endian call serializes big-endian, both elements of a
big-tagged slice of uint16 serialize big-endian, and a uint32 inside a
big-tagged struct field still serializes little-endian. -/
theorem wire_C8_order_override_scope (x a b y : Nat) :
    encodeBytes .little (.strct (.cons "F" [.big] (.u32 x) .nil)) =
      putUint32 .big (x % 2 ^ 32) ∧
    encodeBytes .little
        (.strct (.cons "S" [.big]
          (.slice (.cons (.u16 a) (.cons (.u16 b) .nil))) .nil)) =
      putUint16 .big (a % 2 ^ 16) ++ putUint16 .big (b % 2 ^ 16) ∧
    encodeBytes .little
        (.strct (.cons "Inner" [.big]
          (.strct (.cons "G" [] (.u32 y) .nil)) .nil)) =
      putUint32 .little (y % 2 ^ 32) :=
  ⟨rfl, rfl, rfl⟩

/-- Claim C9: the driver dispatches the kinds bool, int, uint and
uintptr to the visitors, and all three visitors reject them with an
unsupported-type error naming the kind, for Sizeof, Encode and Decode
alike. -/
theorem wire_C9_unsupported_kinds (b : Bool) (n : Int) (m p : Nat)
    (o : ByteOrder) (w : Writer) (r : List Nat) :
    Sizeof (.gbool b) = .error (.goError "wire: unsupported type: bool") ∧
    Sizeof (.gint n) = .error (.goError "wire: unsupported type: int") ∧
    Sizeof (.guint m) = .error (.goError "wire: unsupported type: uint") ∧
    Sizeof (.guintptr p) = .error (.goError "wire: unsupported type: uintptr") ∧
    EncodeWithOrder o (.gbool b) w = .error (.goError "wire: unsupported type: bool") ∧
    EncodeWithOrder o (.gint n) w = .error (.goError "wire: unsupported type: int") ∧
    EncodeWithOrder o (.guint m) w = .error (.goError "wire: unsupported type: uint") ∧
    EncodeWithOrder o (.guintptr p) w = .error (.goError "wire: unsupported type: uintptr") ∧
    DecodeWithOrder o .gbool r = (r, .error (.goError "wire: unsupported type: bool")) ∧
    DecodeWithOrder o .gint r = (r, .error (.goError "wire: unsupported type: int")) ∧
    DecodeWithOrder o .guint r = (r, .error (.goError "wire: unsupported type: uint")) ∧
    DecodeWithOrder o .guintptr r = (r, .error (.goError "wire: unsupported type: uintptr")) :=
  ⟨rfl, rfl, rfl, rfl, rfl, rfl, rfl, rfl, rfl, rfl, rfl, rfl⟩

/-- Claim C10, counterexample: decoding a slice whose resolved length
producer is an int8 field does crash — after the count byte is decoded,
reading the producer with reflect.Value.Uint panics on the signed kind. -/
theorem wire_C10_counterexample :
    DecodeWithOrder .little tySignedProducer [2, 9, 9] =
      ([9, 9], .error (.panicked "reflect: call of reflect.Value.Uint on int8 Value")) :=
  rfl

/-- Claim C10, amended: decoding a slice field whose resolved length
producer is a signed integer field crashes for every input — the
producer's value is read with reflect.Value.Uint, which panics on
signed kinds — even though encode accepts signed length producers
through its SetInt branch and back-patches them. -/
theorem wire_C10_signed_producer_crashes (c : Nat) (r : List Nat) :
    DecodeWithOrder .little tySignedProducer (c :: r) =
      (r, .error (.panicked "reflect: call of reflect.Value.Uint on int8 Value")) ∧
    EncodeWithOrder .little vSignedProducer ⟨false, []⟩ =
      .ok (vSignedProducerPatched, ⟨false, [1, 7]⟩) :=
  ⟨rfl, rfl⟩

/-- Appending the empty field list on the right is the identity. -/
theorem appendF_nil : (fs : FList) → appendF fs .nil = fs
  | .nil => rfl
  | .cons n t v rest => by
      show FList.cons n t v (appendF rest .nil) = FList.cons n t v rest
      rw [appendF_nil rest]

/-- Moving a snoc across appendF. -/
theorem appendF_snoc : (d : FList) → (n : String) → (t : List Directive) →
    (v : WValue) → (r : FList) →
    appendF (snocF d n t v) r = appendF d (.cons n t v r)
  | .nil, _, _, _, _ => rfl
  | .cons n2 t2 v2 rest, n, t, v, r => by
      show FList.cons n2 t2 v2 (appendF (snocF rest n t v) r) =
        FList.cons n2 t2 v2 (appendF rest (.cons n t v r))
      rw [appendF_snoc rest n t v r]

/-- A healthy write appends to the buffer. -/
theorem write_ok (b bs : List Nat) :
    Writer.write ⟨false, b⟩ bs = (⟨false, b ++ bs⟩, none) := rfl

/-- putUint16 always yields two bytes. -/
theorem putUint16_length (o : ByteOrder) (x : Nat) : (putUint16 o x).length = 2 := by
  cases o <;> rfl

/-- putUint32 always yields four bytes. -/
theorem putUint32_length (o : ByteOrder) (x : Nat) : (putUint32 o x).length = 4 := by
  cases o <;> rfl

/-- putUint64 always yields eight bytes. -/
theorem putUint64_length (o : ByteOrder) (x : Nat) : (putUint64 o x).length = 8 := by
  cases o <;> rfl

/-- Reading back a 16-bit value in either order. -/
theorem put_get_16 (o : ByteOrder) (x : Nat) (h : x < 2 ^ 16) :
    getUint16 o (putUint16 o x) = x := by
  cases o <;> simp [putUint16, getUint16] <;> omega

/-- Reading back a 32-bit value in either order. -/
theorem put_get_32 (o : ByteOrder) (x : Nat) (h : x < 2 ^ 32) :
    getUint32 o (putUint32 o x) = x := by
  cases o <;> simp [putUint32, getUint32] <;> omega

/-- Reading back a 64-bit value in either order. -/
theorem put_get_64 (o : ByteOrder) (x : Nat) (h : x < 2 ^ 64) :
    getUint64 o (putUint64 o x) = x := by
  cases o <;> simp [putUint64, getUint64] <;> omega

/-- The unsigned representative of a signed value fits its width. -/
theorem intToUintW_lt (w : Nat) (x : Int) : intToUintW w x < 2 ^ w := by
  unfold intToUintW
  have h1 : (0 : Int) < 2 ^ w := by positivity
  have h2 := Int.emod_lt_of_pos x h1
  have h3 := Int.emod_nonneg x (by positivity : (2 : Int) ^ w ≠ 0)
  have h5 : ((2 ^ w : Nat) : Int) = (2 : Int) ^ w := by norm_cast
  omega

/-- The low byte of a signed value is its 8-bit unsigned
representative. -/
theorem intLowByte_eq (x : Int) : intLowByte x = intToUintW 8 x := by
  norm_num [intLowByte, intToUintW]

/-- Two's-complement wrap undoes the unsigned cast within 8 bits. -/
theorem sign_cast_8 (x : Int) (h1 : -128 ≤ x) (h2 : x < 128) :
    toIntW 8 (intToUintW 8 x) = x := by
  unfold toIntW intToUintW
  simp only [show ((2 : Int) ^ 8) = 256 by norm_num,
    show ((2 : Nat) ^ 8) = 256 by norm_num, show ((2 : Nat) ^ (8 - 1)) = 128 by norm_num]
  have h3 := Int.emod_nonneg x (show (256 : Int) ≠ 0 by norm_num)
  have h4 := Int.emod_lt_of_pos x (show (0 : Int) < 256 by norm_num)
  split_ifs <;> omega

/-- Two's-complement wrap undoes the unsigned cast within 16 bits. -/
theorem sign_cast_16 (x : Int) (h1 : -32768 ≤ x) (h2 : x < 32768) :
    toIntW 16 (intToUintW 16 x) = x := by
  unfold toIntW intToUintW
  simp only [show ((2 : Int) ^ 16) = 65536 by norm_num,
    show ((2 : Nat) ^ 16) = 65536 by norm_num,
    show ((2 : Nat) ^ (16 - 1)) = 32768 by norm_num]
  have h3 := Int.emod_nonneg x (show (65536 : Int) ≠ 0 by norm_num)
  have h4 := Int.emod_lt_of_pos x (show (0 : Int) < 65536 by norm_num)
  split_ifs <;> omega

/-- Two's-complement wrap undoes the unsigned cast within 32 bits. -/
theorem sign_cast_32 (x : Int) (h1 : -2147483648 ≤ x) (h2 : x < 2147483648) :
    toIntW 32 (intToUintW 32 x) = x := by
  unfold toIntW intToUintW
  simp only [show ((2 : Int) ^ 32) = 4294967296 by norm_num,
    show ((2 : Nat) ^ 32) = 4294967296 by norm_num,
    show ((2 : Nat) ^ (32 - 1)) = 2147483648 by norm_num]
  have h3 := Int.emod_nonneg x (show (4294967296 : Int) ≠ 0 by norm_num)
  have h4 := Int.emod_lt_of_pos x (show (0 : Int) < 4294967296 by norm_num)
  split_ifs <;> omega

/-- Two's-complement wrap undoes the unsigned cast within 64 bits. -/
theorem sign_cast_64 (x : Int) (h1 : -9223372036854775808 ≤ x)
    (h2 : x < 9223372036854775808) : toIntW 64 (intToUintW 64 x) = x := by
  unfold toIntW intToUintW
  simp only [show ((2 : Int) ^ 64) = 18446744073709551616 by norm_num,
    show ((2 : Nat) ^ 64) = 18446744073709551616 by norm_num,
    show ((2 : Nat) ^ (64 - 1)) = 9223372036854775808 by norm_num]
  have h3 := Int.emod_nonneg x (show (18446744073709551616 : Int) ≠ 0 by norm_num)
  have h4 := Int.emod_lt_of_pos x (show (0 : Int) < 18446744073709551616 by norm_num)
  split_ifs <;> omega

/-- Reading exactly the bytes that sit at the front of the input. -/
theorem readBytes_exact (k : Nat) (bs rest : List Nat) (h : bs.length = k) :
    readBytes k (bs ++ rest) = (bs, rest, none) := by
  subst h
  unfold readBytes
  rcases bs with _ | ⟨b, bs⟩
  · rcases rest with _ | ⟨r0, rest⟩
    · rfl
    · simp
  · have hlen : (b :: bs).length - (b :: bs ++ rest).length = 0 := by
      simp
    simp [hlen, List.take_left, List.drop_left]

/-- readNullTerminatedString consumes the zero-free prefix and its
terminator, returning the prefix. -/
theorem readNullTerm_append (bs rest : List Nat) (h : ∀ b ∈ bs, b ≠ 0) :
    readNullTerm (bs ++ 0 :: rest) = (rest, .ok bs) := by
  induction bs with
  | nil => simp [readNullTerm]
  | cons b bs ih =>
      have hb : b ≠ 0 := h b (by simp)
      have ih2 := ih fun x hx => h x (by simp [hx])
      simp [readNullTerm, hb, ih2]

/-- When the back-patch preserves the value, it is the identity. -/
theorem backPatch_of_prodMatches (szof : Option WValue) (v : WValue)
    (h : prodMatches szof v = true) : backPatch szof v = .ok v := by
  cases szof with
  | none => rfl
  | some target =>
      cases v
      case i8 x =>
        simp only [prodMatches] at h
        rcases hv : vLen target with er | l
        · rw [hv] at h; simp at h
        · rw [hv] at h
          simp only [decide_eq_true_eq] at h
          subst h
          simp [backPatch, hv]
      case i32 x =>
        simp only [prodMatches] at h
        rcases hv : vLen target with er | l
        · rw [hv] at h; simp at h
        · rw [hv] at h
          simp only [decide_eq_true_eq] at h
          subst h
          simp [backPatch, hv]
      case i64 x =>
        simp only [prodMatches] at h
        rcases hv : vLen target with er | l
        · rw [hv] at h; simp at h
        · rw [hv] at h
          simp only [decide_eq_true_eq] at h
          subst h
          simp [backPatch, hv]
      case u8 x =>
        simp only [prodMatches] at h
        rcases hv : vLen target with er | l
        · rw [hv] at h; simp at h
        · rw [hv] at h
          simp only [decide_eq_true_eq] at h
          subst h
          simp [backPatch, hv]
      case u32 x =>
        simp only [prodMatches] at h
        rcases hv : vLen target with er | l
        · rw [hv] at h; simp at h
        · rw [hv] at h
          simp only [decide_eq_true_eq] at h
          subst h
          simp [backPatch, hv]
      case u64 x =>
        simp only [prodMatches] at h
        rcases hv : vLen target with er | l
        · rw [hv] at h; simp at h
        · rw [hv] at h
          simp only [decide_eq_true_eq] at h
          subst h
          simp [backPatch, hv]
      all_goals rfl

/-- The back-patch never touches a string. -/
theorem backPatch_str (szof : Option WValue) (bs : List Nat) :
    backPatch szof (.str bs) = .ok (.str bs) := by
  cases szof <;> rfl

/-- Resolution of the visitor/node order for the encoder: for every
non-string kind the node behaves as a fresh top-level encode at its
resolved order (struct kinds keep the visitor default), provided the
back-patch is the identity. -/
theorem encodeNode_resolve (vo : ByteOrder) (eo : Option ByteOrder) (nullt : Bool)
    (szof : Option WValue) (v : WValue) (w : Writer)
    (hbp : backPatch szof v = .ok v) (hs : isStrV v = false) :
    encodeNode vo eo nullt szof v w =
      encodeNode (resolveV vo eo v) none false none v w := by
  cases v
  case str bs => simp [isStrV] at hs
  case strct fs => rfl
  case arr es => rfl
  case slice es => rfl
  all_goals rw [encodeNode, encodeNode, hbp]
  all_goals first
    | rfl
    | (intro x h; exact WValue.noConfusion h)

/-- Resolution of the visitor/node order for the decoder: for every
plain type kind the node behaves as a fresh top-level decode at its
resolved order. -/
theorem decodeNode_resolve (vo : ByteOrder) (eo : Option ByteOrder) (nullt : Bool)
    (szfrom : Option WValue) (t : WTy) (r : List Nat) (hp : plainT t = true) :
    decodeNode vo eo nullt szfrom t r =
      decodeNode (resolveT vo eo t) none false none t r := by
  cases t
  case str => simp [plainT] at hp
  case slice e => simp [plainT] at hp
  all_goals rfl

/-- A round-trippable pair is never a string, its type is plain, and
both sides resolve the same order. -/
theorem RT_facts {v : WValue} {t : WTy} (h : RT v t) (vo : ByteOrder)
    (eo : Option ByteOrder) :
    isStrV v = false ∧ plainT t = true ∧ resolveV vo eo v = resolveT vo eo t := by
  cases h <;> exact ⟨rfl, rfl, rfl⟩

/-- Encoding a string node: the back-patch never touches it, so it is
the leaf write at the resolved order. -/
theorem encodeNode_str (vo : ByteOrder) (eo : Option ByteOrder) (nullt : Bool)
    (szof : Option WValue) (bs : List Nat) (w : Writer) :
    encodeNode vo eo nullt szof (.str bs) w = encodeLeaf (eo.getD vo) nullt (.str bs) w := by
  show (match backPatch szof (.str bs) with
        | Except.error er => Except.error er
        | Except.ok v2 => encodeLeaf (eo.getD vo) nullt v2 w) = _
  rw [backPatch_str]

/-- Decoding a string node is the leaf read at the resolved order. -/
theorem decodeNode_str (vo : ByteOrder) (eo : Option ByteOrder) (nullt : Bool)
    (szfrom : Option WValue) (r : List Nat) :
    decodeNode vo eo nullt szfrom .str r = decodeLeaf (eo.getD vo) nullt szfrom .str r := rfl

/-- Decoding the encoded bytes of an int8 value in range. -/
theorem dec_i8 (vo : ByteOrder) (x : Int) (rest : List Nat)
    (h1 : -128 ≤ x) (h2 : x < 128) :
    decodeNode vo none false none .i8 ([intLowByte x] ++ rest) = (rest, .ok (.i8 x)) := by
  show decodeLeaf vo false none .i8 ([intLowByte x] ++ rest) = _
  simp only [decodeLeaf, readBytes_exact 1 [intLowByte x] rest rfl]
  simp [intLowByte_eq, sign_cast_8 x h1 h2]

/-- Decoding the encoded bytes of an int16 value in range. -/
theorem dec_i16 (vo : ByteOrder) (x : Int) (rest : List Nat)
    (h1 : -32768 ≤ x) (h2 : x < 32768) :
    decodeNode vo none false none .i16 (putUint16 vo (intToUintW 16 x) ++ rest) =
      (rest, .ok (.i16 x)) := by
  show decodeLeaf vo false none .i16 _ = _
  simp only [decodeLeaf, readBytes_exact 2 _ rest (putUint16_length vo _)]
  rw [put_get_16 vo _ (intToUintW_lt 16 x), sign_cast_16 x h1 h2]

/-- Decoding the encoded bytes of an int32 value in range. -/
theorem dec_i32 (vo : ByteOrder) (x : Int) (rest : List Nat)
    (h1 : -2147483648 ≤ x) (h2 : x < 2147483648) :
    decodeNode vo none false none .i32 (putUint32 vo (intToUintW 32 x) ++ rest) =
      (rest, .ok (.i32 x)) := by
  show decodeLeaf vo false none .i32 _ = _
  simp only [decodeLeaf, readBytes_exact 4 _ rest (putUint32_length vo _)]
  rw [put_get_32 vo _ (intToUintW_lt 32 x), sign_cast_32 x h1 h2]

/-- Decoding the encoded bytes of an int64 value in range. -/
theorem dec_i64 (vo : ByteOrder) (x : Int) (rest : List Nat)
    (h1 : -9223372036854775808 ≤ x) (h2 : x < 9223372036854775808) :
    decodeNode vo none false none .i64 (putUint64 vo (intToUintW 64 x) ++ rest) =
      (rest, .ok (.i64 x)) := by
  show decodeLeaf vo false none .i64 _ = _
  simp only [decodeLeaf, readBytes_exact 8 _ rest (putUint64_length vo _)]
  rw [put_get_64 vo _ (intToUintW_lt 64 x), sign_cast_64 x h1 h2]

/-- Decoding the encoded bytes of a uint8 value in range. -/
theorem dec_u8 (vo : ByteOrder) (x : Nat) (rest : List Nat) (h : x < 256) :
    decodeNode vo none false none .u8 ([x % 256] ++ rest) = (rest, .ok (.u8 x)) := by
  show decodeLeaf vo false none .u8 ([x % 256] ++ rest) = _
  simp only [decodeLeaf, readBytes_exact 1 [x % 256] rest rfl]
  simp [Nat.mod_eq_of_lt h]

/-- Decoding the encoded bytes of a uint16 value in range. -/
theorem dec_u16 (vo : ByteOrder) (x : Nat) (rest : List Nat) (h : x < 65536) :
    decodeNode vo none false none .u16 (putUint16 vo (x % 2 ^ 16) ++ rest) =
      (rest, .ok (.u16 x)) := by
  show decodeLeaf vo false none .u16 _ = _
  simp only [decodeLeaf, readBytes_exact 2 _ rest (putUint16_length vo _)]
  rw [put_get_16 vo _ (Nat.mod_lt _ (by norm_num)), Nat.mod_eq_of_lt (show x < 2 ^ 16 from h)]

/-- Decoding the encoded bytes of a uint32 value in range. -/
theorem dec_u32 (vo : ByteOrder) (x : Nat) (rest : List Nat) (h : x < 4294967296) :
    decodeNode vo none false none .u32 (putUint32 vo (x % 2 ^ 32) ++ rest) =
      (rest, .ok (.u32 x)) := by
  show decodeLeaf vo false none .u32 _ = _
  simp only [decodeLeaf, readBytes_exact 4 _ rest (putUint32_length vo _)]
  rw [put_get_32 vo _ (Nat.mod_lt _ (by norm_num)), Nat.mod_eq_of_lt (show x < 2 ^ 32 from h)]

/-- Decoding the encoded bytes of a uint64 value in range. -/
theorem dec_u64 (vo : ByteOrder) (x : Nat) (rest : List Nat)
    (h : x < 18446744073709551616) :
    decodeNode vo none false none .u64 (putUint64 vo (x % 2 ^ 64) ++ rest) =
      (rest, .ok (.u64 x)) := by
  show decodeLeaf vo false none .u64 _ = _
  simp only [decodeLeaf, readBytes_exact 8 _ rest (putUint64_length vo _)]
  rw [put_get_64 vo _ (Nat.mod_lt _ (by norm_num)), Nat.mod_eq_of_lt (show x < 2 ^ 64 from h)]

mutual
/-- Soundness of RT: a round-trippable bare value encodes to a byte
block that decodes back to exactly that value, at every default
order. -/
theorem RT_sound : ∀ {v : WValue} {t : WTy}, RT v t → ∀ vo : ByteOrder,
    ∃ out : List Nat,
      (∀ b, encodeNode vo none false none v ⟨false, b⟩ = .ok (v, ⟨false, b ++ out⟩)) ∧
      (∀ rest, decodeNode vo none false none t (out ++ rest) = (rest, .ok v))
  | _, _, .i8R x h1 h2, vo =>
      ⟨[intLowByte x], fun _ => rfl, fun rest => dec_i8 vo x rest h1 h2⟩
  | _, _, .i16R x h1 h2, vo =>
      ⟨putUint16 vo (intToUintW 16 x), fun _ => rfl, fun rest => dec_i16 vo x rest h1 h2⟩
  | _, _, .i32R x h1 h2, vo =>
      ⟨putUint32 vo (intToUintW 32 x), fun _ => rfl, fun rest => dec_i32 vo x rest h1 h2⟩
  | _, _, .i64R x h1 h2, vo =>
      ⟨putUint64 vo (intToUintW 64 x), fun _ => rfl, fun rest => dec_i64 vo x rest h1 h2⟩
  | _, _, .u8R x h, vo =>
      ⟨[x % 256], fun _ => rfl, fun rest => dec_u8 vo x rest h⟩
  | _, _, .u16R x h, vo =>
      ⟨putUint16 vo (x % 2 ^ 16), fun _ => rfl, fun rest => dec_u16 vo x rest h⟩
  | _, _, .u32R x h, vo =>
      ⟨putUint32 vo (x % 2 ^ 32), fun _ => rfl, fun rest => dec_u32 vo x rest h⟩
  | _, _, .u64R x h, vo =>
      ⟨putUint64 vo (x % 2 ^ 64), fun _ => rfl, fun rest => dec_u64 vo x rest h⟩
  | _, _, @RT.arrR es n te hn h, vo => by
      obtain ⟨out, he, hd⟩ := RTL_sound h vo
      subst hn
      refine ⟨out, ?_, ?_⟩
      · intro b
        show (match encodeSeq vo es ⟨false, b⟩ with
              | Except.error er => Except.error er
              | Except.ok (es2, w2) => Except.ok (WValue.arr es2, w2)) = _
        rw [he b]
      · intro rest
        show (match iterDecode (decodeNode vo none false none te) es.length (out ++ rest) with
              | (r2, Except.error er) => (r2, Except.error er)
              | (r2, Except.ok es2) => (r2, Except.ok (WValue.arr es2))) = _
        rw [hd rest]
  | _, _, @RT.strctR fs tfs h, vo => by
      obtain ⟨out, he, hd⟩ := RTF_sound h .nil rfl vo
      refine ⟨out, ?_, ?_⟩
      · intro b
        show (match encodeFields vo .nil fs ⟨false, b⟩ with
              | Except.error er => Except.error er
              | Except.ok (fs2, w2) => Except.ok (WValue.strct fs2, w2)) = _
        rw [he b]
      · intro rest
        show (match decodeFields vo [] tfs (out ++ rest) with
              | (r2, Except.error er) => (r2, Except.error er)
              | (r2, Except.ok fs2) => (r2, Except.ok (WValue.strct fs2))) = _
        rw [hd rest]

/-- Soundness of RTL: a round-trippable element list encodes to the
concatenation of its elements' blocks, and the element loop of the
decoder reads them all back. -/
theorem RTL_sound : ∀ {es : VList} {te : WTy}, RTL es te → ∀ vo : ByteOrder,
    ∃ out : List Nat,
      (∀ b, encodeSeq vo es ⟨false, b⟩ = .ok (es, ⟨false, b ++ out⟩)) ∧
      (∀ rest, iterDecode (decodeNode vo none false none te) es.length (out ++ rest) =
        (rest, .ok es))
  | _, _, .nilL _, vo => by
      refine ⟨[], ?_, ?_⟩
      · intro b
        rw [List.append_nil]
        rfl
      · intro rest
        rfl
  | _, _, @RTL.consL e rest2 te h hrest, vo => by
      obtain ⟨oe, hee, hed⟩ := RT_sound h vo
      obtain ⟨ol, hle, hld⟩ := RTL_sound hrest vo
      refine ⟨oe ++ ol, ?_, ?_⟩
      · intro b
        show (match encodeNode vo none false none e ⟨false, b⟩ with
              | Except.error er => Except.error er
              | Except.ok (e2, w2) =>
                  match encodeSeq vo rest2 w2 with
                  | Except.error er => Except.error er
                  | Except.ok (r2, w3) => Except.ok (VList.cons e2 r2, w3)) = _
        simp only [hee, hle, List.append_assoc]
      · intro rest
        show (match decodeNode vo none false none te ((oe ++ ol) ++ rest) with
              | (r2, Except.error er) => (r2, Except.error er)
              | (r2, Except.ok v) =>
                  match iterDecode (decodeNode vo none false none te) rest2.length r2 with
                  | (r3, Except.error er) => (r3, Except.error er)
                  | (r3, Except.ok vs) => (r3, Except.ok (VList.cons v vs))) = _
        simp only [List.append_assoc, hed, hld]

/-- Soundness of RTF: round-trippable struct fields encode to the
concatenation of their blocks, the encoder leaves every field value
unchanged, and the decoder reconstructs the fields while registering
producers exactly as the relation threads them. -/
theorem RTF_sound : ∀ {whole env pending tfs}, RTF whole env pending tfs →
    ∀ (done : FList), appendF done pending = whole → ∀ vo : ByteOrder,
    ∃ out : List Nat,
      (∀ b, encodeFields vo done pending ⟨false, b⟩ = .ok (whole, ⟨false, b ++ out⟩)) ∧
      (∀ rest, decodeFields vo env tfs (out ++ rest) = (rest, .ok pending))
  | _, _, _, _, .nilF whole env, done, hw, vo => by
      rw [appendF_nil] at hw
      subst hw
      refine ⟨[], ?_, ?_⟩
      · intro b
        rw [List.append_nil]
        rfl
      · intro rest
        rfl
  | _, _, _, _, @RTF.consVal whole env name tag v t rest trest hv hbp hrest, done, hw, vo => by
      obtain ⟨hstr, hplain, hres⟩ := RT_facts hv vo (tagEndian tag)
      have hbp2 : backPatch (szofRef whole tag) v = .ok v :=
        backPatch_of_prodMatches _ _ hbp
      obtain ⟨fo, hfe, hfd⟩ := RT_sound hv (resolveV vo (tagEndian tag) v)
      obtain ⟨ro, hre, hrd⟩ :=
        RTF_sound hrest (snocF done name tag v) (by rw [appendF_snoc]; exact hw) vo
      refine ⟨fo ++ ro, ?_, ?_⟩
      · intro b
        show (match
                encodeNode vo (tagEndian tag) (tagNullterm tag)
                  (szofRef (appendF done (.cons name tag v rest)) tag) v ⟨false, b⟩ with
              | Except.error er => Except.error er
              | Except.ok (v2, w2) => encodeFields vo (snocF done name tag v2) rest w2) = _
        rw [hw, encodeNode_resolve vo (tagEndian tag) (tagNullterm tag)
              (szofRef whole tag) v ⟨false, b⟩ hbp2 hstr]
        simp only [hfe, hre, List.append_assoc]
      · intro rest2
        show (match
                decodeNode vo (tagEndian tag) (tagNullterm tag) (lookupEnv name env) t
                  ((fo ++ ro) ++ rest2) with
              | (r2, Except.error er) => (r2, Except.error er)
              | (r2, Except.ok v2) =>
                  match decodeFields vo (regEnv tag v2 env) trest r2 with
                  | (r3, Except.error er) => (r3, Except.error er)
                  | (r3, Except.ok fs) => (r3, Except.ok (FList.cons name tag v2 fs))) = _
        rw [List.append_assoc,
            decodeNode_resolve vo (tagEndian tag) (tagNullterm tag) (lookupEnv name env) t
              (fo ++ (ro ++ rest2)) hplain,
            ← hres]
        simp only [hfd, hrd]
  | _, _, _, _, @RTF.consStrNull whole env name tag bs rest trest hnt hz hlt hrest, done, hw, vo => by
      obtain ⟨ro, hre, hrd⟩ :=
        RTF_sound hrest (snocF done name tag (.str bs)) (by rw [appendF_snoc]; exact hw) vo
      refine ⟨(bs ++ [0]) ++ ro, ?_, ?_⟩
      · intro b
        show (match
                encodeNode vo (tagEndian tag) (tagNullterm tag)
                  (szofRef (appendF done (.cons name tag (.str bs) rest)) tag) (.str bs)
                  ⟨false, b⟩ with
              | Except.error er => Except.error er
              | Except.ok (v2, w2) => encodeFields vo (snocF done name tag v2) rest w2) = _
        rw [hw, encodeNode_str]
        show encodeFields vo (snocF done name tag (.str bs))
              rest (if tagNullterm tag then ⟨false, (b ++ bs) ++ [0]⟩ else ⟨false, b ++ bs⟩) = _
        simp only [hnt, if_true, hre]
        simp [List.append_assoc]
      · intro rest2
        show (match
                decodeNode vo (tagEndian tag) (tagNullterm tag) (lookupEnv name env) .str
                  (((bs ++ [0]) ++ ro) ++ rest2) with
              | (r2, Except.error er) => (r2, Except.error er)
              | (r2, Except.ok v2) =>
                  match decodeFields vo (regEnv tag v2 env) trest r2 with
                  | (r3, Except.error er) => (r3, Except.error er)
                  | (r3, Except.ok fs) => (r3, Except.ok (FList.cons name tag v2 fs))) = _
        rw [decodeNode_str, List.append_assoc, List.append_assoc]
        show (match
                decodeLeaf ((tagEndian tag).getD vo) (tagNullterm tag) (lookupEnv name env) .str
                  (bs ++ ([0] ++ (ro ++ rest2))) with
              | (r2, Except.error er) => (r2, Except.error er)
              | (r2, Except.ok v2) =>
                  match decodeFields vo (regEnv tag v2 env) trest r2 with
                  | (r3, Except.error er) => (r3, Except.error er)
                  | (r3, Except.ok fs) => (r3, Except.ok (FList.cons name tag v2 fs))) = _
        rw [show (decodeLeaf ((tagEndian tag).getD vo) (tagNullterm tag) (lookupEnv name env) .str
              (bs ++ ([0] ++ (ro ++ rest2)))) =
            (if tagNullterm tag then
              match readNullTerm (bs ++ (0 :: (ro ++ rest2))) with
              | (r2, Except.error er) => (r2, Except.error er)
              | (r2, Except.ok bs2) => (r2, Except.ok (WValue.str bs2))
             else
              match lookupEnv name env with
              | none =>
                  (bs ++ (0 :: (ro ++ rest2)),
                   Except.error (.panicked "runtime error: invalid memory address or nil pointer dereference"))
              | some producer =>
                  match valUint producer with
                  | Except.error er => (bs ++ (0 :: (ro ++ rest2)), Except.error er)
                  | Except.ok cnt =>
                      if cnt < 2 ^ 63 then
                        match readBytes cnt (bs ++ (0 :: (ro ++ rest2))) with
                        | (bs2, r2, none) => (r2, Except.ok (WValue.str bs2))
                        | (_, r2, some er) => (r2, Except.error er)
                      else
                        (bs ++ (0 :: (ro ++ rest2)),
                         Except.error (.panicked "runtime error: makeslice: len out of range"))) from rfl,
            hnt]
        simp only [if_true, readNullTerm_append bs (ro ++ rest2) hz, hrd]
  | _, _, _, _, @RTF.consStrLinked whole env name tag bs pv rest trest hnt hlk hcnt hsz hlt hrest, done, hw, vo => by
      obtain ⟨ro, hre, hrd⟩ :=
        RTF_sound hrest (snocF done name tag (.str bs)) (by rw [appendF_snoc]; exact hw) vo
      refine ⟨bs ++ ro, ?_, ?_⟩
      · intro b
        show (match
                encodeNode vo (tagEndian tag) (tagNullterm tag)
                  (szofRef (appendF done (.cons name tag (.str bs) rest)) tag) (.str bs)
                  ⟨false, b⟩ with
              | Except.error er => Except.error er
              | Except.ok (v2, w2) => encodeFields vo (snocF done name tag v2) rest w2) = _
        rw [hw, encodeNode_str]
        show encodeFields vo (snocF done name tag (.str bs))
              rest (if tagNullterm tag then ⟨false, (b ++ bs) ++ [0]⟩ else ⟨false, b ++ bs⟩) = _
        simp only [hnt, if_false, Bool.false_eq_true, hre, List.append_assoc]
      · intro rest2
        show (match
                decodeNode vo (tagEndian tag) (tagNullterm tag) (lookupEnv name env) .str
                  ((bs ++ ro) ++ rest2) with
              | (r2, Except.error er) => (r2, Except.error er)
              | (r2, Except.ok v2) =>
                  match decodeFields vo (regEnv tag v2 env) trest r2 with
                  | (r3, Except.error er) => (r3, Except.error er)
                  | (r3, Except.ok fs) => (r3, Except.ok (FList.cons name tag v2 fs))) = _
        rw [decodeNode_str, List.append_assoc]
        show (match
                (if tagNullterm tag then
                  match readNullTerm (bs ++ (ro ++ rest2)) with
                  | (r2, Except.error er) => (r2, Except.error er)
                  | (r2, Except.ok bs2) => (r2, Except.ok (WValue.str bs2))
                 else
                  match lookupEnv name env with
                  | none =>
                      (bs ++ (ro ++ rest2),
                       Except.error (.panicked "runtime error: invalid memory address or nil pointer dereference"))
                  | some producer =>
                      match valUint producer with
                      | Except.error er => (bs ++ (ro ++ rest2), Except.error er)
                      | Except.ok cnt =>
                          if cnt < 2 ^ 63 then
                            match readBytes cnt (bs ++ (ro ++ rest2)) with
                            | (bs2, r2, none) => (r2, Except.ok (WValue.str bs2))
                            | (_, r2, some er) => (r2, Except.error er)
                          else
                            (bs ++ (ro ++ rest2),
                             Except.error (.panicked "runtime error: makeslice: len out of range"))) with
              | (r2, Except.error er) => (r2, Except.error er)
              | (r2, Except.ok v2) =>
                  match decodeFields vo (regEnv tag v2 env) trest r2 with
                  | (r3, Except.error er) => (r3, Except.error er)
                  | (r3, Except.ok fs) => (r3, Except.ok (FList.cons name tag v2 fs))) = _
        simp only [hnt, if_false, Bool.false_eq_true, hlk, hcnt, hsz, if_true,
          readBytes_exact bs.length bs (ro ++ rest2) rfl, hrd]
  | _, _, _, _, @RTF.consSlice whole env name tag es te pv rest trest hlk hcnt hsz hes hrest, done, hw, vo => by
      obtain ⟨so, hse, hsd⟩ := RTL_sound hes ((tagEndian tag).getD vo)
      obtain ⟨ro, hre, hrd⟩ :=
        RTF_sound hrest (snocF done name tag (.slice es)) (by rw [appendF_snoc]; exact hw) vo
      refine ⟨so ++ ro, ?_, ?_⟩
      · intro b
        show (match
                (match encodeSeq ((tagEndian tag).getD vo) es ⟨false, b⟩ with
                 | Except.error er => Except.error er
                 | Except.ok (es2, w2) => Except.ok (WValue.slice es2, w2)) with
              | Except.error er => Except.error er
              | Except.ok (v2, w2) => encodeFields vo (snocF done name tag v2) rest w2) = _
        simp only [hse, hre, List.append_assoc]
      · intro rest2
        show (match
                (match lookupEnv name env with
                 | none =>
                     ((so ++ ro) ++ rest2,
                      Except.error (.goError "wire: slice with no size source"))
                 | some producer =>
                     match valUint producer with
                     | Except.error er => ((so ++ ro) ++ rest2, Except.error er)
                     | Except.ok cnt =>
                         if cnt < 2 ^ 63 then
                           match
                             iterDecode (decodeNode ((tagEndian tag).getD vo) none false none te)
                               cnt ((so ++ ro) ++ rest2) with
                           | (r2, Except.error er) => (r2, Except.error er)
                           | (r2, Except.ok es2) => (r2, Except.ok (WValue.slice es2))
                         else
                           ((so ++ ro) ++ rest2,
                            Except.error (.panicked "reflect.MakeSlice: negative len"))) with
              | (r2, Except.error er) => (r2, Except.error er)
              | (r2, Except.ok v2) =>
                  match decodeFields vo (regEnv tag v2 env) trest r2 with
                  | (r3, Except.error er) => (r3, Except.error er)
                  | (r3, Except.ok fs) => (r3, Except.ok (FList.cons name tag v2 fs))) = _
        simp only [hlk, hcnt, hsz, if_true, List.append_assoc, hsd, hrd]
end

/-- Claim C3, counterexample: the round trip is not the identity for
every composite without length-producer mutation ambiguity — a struct
whose null-terminated string consists of one zero byte encodes to two
zero bytes, and decoding them back succeeds but yields the empty
string with one byte of input left over, a value different from the
original. -/
theorem wire_C3_counterexample :
    encodeBytes .little vNulInside = [0, 0] ∧
    DecodeWithOrder .little tyNulInside (encodeBytes .little vNulInside) =
      ([0], .ok (.strct (.cons "S" [.nullterm] (.str []) .nil))) ∧
    WValue.strct (.cons "S" [.nullterm] (.str []) .nil) ≠ vNulInside := by
  refine ⟨rfl, rfl, ?_⟩
  intro hcontra
  simp [vNulInside] at hcontra

/-- Claim C3, amended: encoding and then decoding a fresh value of the
same shape with the same byte-order default reproduces the value for
every composite in the RT class: fixed-width integers within their
width, arrays of round-trippable elements, null-terminated strings
containing no zero byte, and strings or slices whose length producer is
an unsigned field already holding the linked collection's exact length
(so no mutation ambiguity), with declaration order placing the producer
first.  Encoding such a value succeeds, leaves it unchanged, and
decoding its bytes consumes them exactly and returns the value. -/
theorem wire_C3_roundtrip (v : WValue) (t : WTy) (h : RT v t) (o : ByteOrder) :
    EncodeWithOrder o v ⟨false, []⟩ = .ok (v, ⟨false, encodeBytes o v⟩) ∧
    DecodeWithOrder o t (encodeBytes o v) = ([], .ok v) := by
  obtain ⟨out, he, hd⟩ := RT_sound h o
  have henc : EncodeWithOrder o v ⟨false, []⟩ = .ok (v, ⟨false, out⟩) := he []
  have hbytes : encodeBytes o v = out := by
    unfold encodeBytes
    rw [henc]
  refine ⟨?_, ?_⟩
  · rw [hbytes]
    exact henc
  · rw [hbytes]
    have hdz := hd []
    rwa [List.append_nil] at hdz

/-- Claim C3, witness: the fixed concrete scenario (count field already
2) is in the RT class and round-trips through encode and decode. -/
theorem wire_C3_roundtrip_witness :
    RT exScenarioFixed tyScenario ∧
    DecodeWithOrder .little tyScenario (encodeBytes .little exScenarioFixed) =
      ([], .ok exScenarioFixed) := by
  have hd : RT exScenarioFixed tyScenario := by
    refine .strctR ?_
    refine .consVal (.u8R 1 (by norm_num)) (by decide) ?_
    refine .consVal (.u16R 2 (by norm_num)) (by decide) ?_
    refine .consStrLinked rfl rfl rfl (by norm_num) (by decide) ?_
    refine .consStrNull rfl (by decide) (by decide) ?_
    exact .nilF _ _
  exact ⟨hd, (wire_C3_roundtrip _ _ hd .little).2⟩

end Wire
